import Mathlib

/-!
# LibAmbient — verification of the capture-to-hue pipeline

Shallow embedding of `src/libambient.cpp` (the single translation unit of the
LibAmbient library).  C `float` arithmetic is modelled as exact rational
arithmetic (`ℚ`); C `int`/`long` values as `ℤ` (channel sums, which are
non-negative by construction, as `ℕ`).  Undefined behaviour (null or dangling
pointer access, double `free`, integer division by zero) is modelled by
`Option`: a result of `none` means the C program has no defined result
(crash / UB), `some` is a normally returned value.
-/

namespace LibAmbient

/-- HSB triple as written by `RGBtoHSB` into `dest[0..2]`. -/
structure HSB where
  hue : ℚ
  saturation : ℚ
  brightness : ℚ
deriving DecidableEq

/-- Embedding of `RGBtoHSB(int r, int g, int b, float* dest)`
(libambient.cpp lines 186–220).  The source computes `cmax`/`cmin` with a
ternary followed by a conditional update, which is the three-way max/min
written here; `float` arithmetic is modelled exactly over `ℚ`. -/
def RGBtoHSB (r g b : ℤ) : HSB :=
  -- `(r > g) ? r : g` followed by `if (b > cmax) cmax = b` is `max (max r g) b`
  let cmax : ℤ := max (max r g) b
  let cmin : ℤ := min (min r g) b
  let brightness : ℚ := (cmax : ℚ) / 255
  let saturation : ℚ := if cmax ≠ 0 then ((cmax - cmin : ℤ) : ℚ) / (cmax : ℚ) else 0
  let hue : ℚ :=
    if saturation = 0 then 0
    else
      let redc : ℚ := ((cmax - r : ℤ) : ℚ) / ((cmax - cmin : ℤ) : ℚ)
      let greenc : ℚ := ((cmax - g : ℤ) : ℚ) / ((cmax - cmin : ℤ) : ℚ)
      let bluec : ℚ := ((cmax - b : ℤ) : ℚ) / ((cmax - cmin : ℤ) : ℚ)
      let hue0 : ℚ :=
        if r = cmax then bluec - greenc
        else if g = cmax then 2 + redc - bluec
        else 4 + greenc - redc
      let hue1 : ℚ := hue0 / 6
      if hue1 < 0 then hue1 + 1 else hue1
  ⟨hue, saturation, brightness⟩

/-- C cast `(int) x` of a non-negative-or-negative `float`/`double`:
truncation toward zero. -/
def truncQ (x : ℚ) : ℤ := if x < 0 then ⌈x⌉ else ⌊x⌋

/-- The `(r, g, b)` channel triple computed by
`HSBtoRGB(float hue, float saturation, float brightness)`
(libambient.cpp lines 227–273) just before it is packed into the returned
`COLOR`.  The `switch ((int) h)` is the chain of comparisons on
`sector = truncQ h`; the final `else` is the switch falling through with the
initial `r = g = b = 0`. -/
def HSBtoRGBChannels (hue saturation brightness : ℚ) : ℤ × ℤ × ℤ :=
  if saturation = 0 then
    let v := truncQ (brightness * 255 + 1/2)
    (v, v, v)
  else
    let h : ℚ := (hue - ⌊hue⌋) * 6
    let f : ℚ := h - ⌊h⌋
    let p : ℚ := brightness * (1 - saturation)
    let q : ℚ := brightness * (1 - saturation * f)
    let t : ℚ := brightness * (1 - saturation * (1 - f))
    let sector : ℤ := truncQ h
    if sector = 0 then
      (truncQ (brightness * 255 + 1/2), truncQ (t * 255 + 1/2), truncQ (p * 255 + 1/2))
    else if sector = 1 then
      (truncQ (q * 255 + 1/2), truncQ (brightness * 255 + 1/2), truncQ (p * 255 + 1/2))
    else if sector = 2 then
      (truncQ (p * 255 + 1/2), truncQ (brightness * 255 + 1/2), truncQ (t * 255 + 1/2))
    else if sector = 3 then
      (truncQ (p * 255 + 1/2), truncQ (q * 255 + 1/2), truncQ (brightness * 255 + 1/2))
    else if sector = 4 then
      (truncQ (t * 255 + 1/2), truncQ (p * 255 + 1/2), truncQ (brightness * 255 + 1/2))
    else if sector = 5 then
      (truncQ (brightness * 255 + 1/2), truncQ (p * 255 + 1/2), truncQ (q * 255 + 1/2))
    else (0, 0, 0)

/-- Embedding of the full `HSBtoRGB` return value
`0xff000000 | (r << 16) | (g << 8) | (b << 0)`; with every channel in
`[0, 255]` the bit-ors coincide with the sum of the shifted bytes written
here. -/
def HSBtoRGB (hue saturation brightness : ℚ) : ℤ :=
  let c := HSBtoRGBChannels hue saturation brightness
  0xff000000 + c.1 * 65536 + c.2.1 * 256 + c.2.2

lemma RGBtoHSB_brightness (r g b : ℤ) :
    (RGBtoHSB r g b).brightness = ((max (max r g) b : ℤ) : ℚ) / 255 := rfl

lemma RGBtoHSB_saturation (r g b : ℤ) :
    (RGBtoHSB r g b).saturation =
      if max (max r g) b ≠ 0 then
        ((max (max r g) b - min (min r g) b : ℤ) : ℚ) / ((max (max r g) b : ℤ) : ℚ)
      else 0 := rfl

lemma RGBtoHSB_hue (r g b : ℤ) :
    (RGBtoHSB r g b).hue =
      if (RGBtoHSB r g b).saturation = 0 then 0
      else
        let M : ℤ := max (max r g) b
        let m : ℤ := min (min r g) b
        let hue0 : ℚ :=
          if r = M then
            ((M - b : ℤ) : ℚ) / ((M - m : ℤ) : ℚ) - ((M - g : ℤ) : ℚ) / ((M - m : ℤ) : ℚ)
          else if g = M then
            2 + ((M - r : ℤ) : ℚ) / ((M - m : ℤ) : ℚ) - ((M - b : ℤ) : ℚ) / ((M - m : ℤ) : ℚ)
          else
            4 + ((M - g : ℤ) : ℚ) / ((M - m : ℤ) : ℚ) - ((M - r : ℤ) : ℚ) / ((M - m : ℤ) : ℚ)
        if hue0 / 6 < 0 then hue0 / 6 + 1 else hue0 / 6 := rfl

/-- The saturation formula exactly as the spec states it for claim C2:
`0` when the max component is `0` and `(max-min)/max` otherwise, with the
max/min written in the spec's association `max(r,g,b)`. -/
def hsbSpec (r g b : ℤ) : HSB :=
  let mx : ℤ := max r (max g b)
  let mn : ℤ := min r (min g b)
  let brightness : ℚ := (mx : ℚ) / 255
  let saturation : ℚ := if mx = 0 then 0 else ((mx : ℚ) - (mn : ℚ)) / (mx : ℚ)
  let hue : ℚ :=
    if saturation = 0 then 0
    else
      let range : ℚ := (mx : ℚ) - (mn : ℚ)
      let redTerm : ℚ := ((mx : ℚ) - (r : ℚ)) / range
      let greenTerm : ℚ := ((mx : ℚ) - (g : ℚ)) / range
      let blueTerm : ℚ := ((mx : ℚ) - (b : ℚ)) / range
      let sixSector : ℚ :=
        if r = mx then blueTerm - greenTerm
        else if g = mx then 2 + redTerm - blueTerm
        else 4 + greenTerm - redTerm
      let h : ℚ := sixSector / 6
      if h < 0 then h + 1 else h
  ⟨hue, saturation, brightness⟩

lemma div_bounds {x D : ℚ} (hD : 0 < D) (hl : -D ≤ x) (hu : x ≤ D) :
    -1 ≤ x / D ∧ x / D ≤ 1 := by
  constructor
  · rw [le_div_iff₀ hD]; linarith
  · rw [div_le_iff₀ hD]; linarith

/-- The hue written into `dest[0]` always lies in `[0, 1)`, whatever integers
reach `RGBtoHSB`: the six-sector value is in `[-1, 5]`, so after division by 6
and the conditional `+ 1` the result is in `[0, 1)`. -/
theorem hue_nonneg_lt_one (r g b : ℤ) :
    0 ≤ (RGBtoHSB r g b).hue ∧ (RGBtoHSB r g b).hue < 1 := by
  simp only [RGBtoHSB]
  set M : ℤ := max (max r g) b with hMdef
  set m : ℤ := min (min r g) b with hmdef
  by_cases hS : (if M ≠ 0 then ((M - m : ℤ) : ℚ) / (M : ℚ) else 0) = 0
  · rw [if_pos hS]; norm_num
  · rw [if_neg hS]
    have hMne : M ≠ 0 := by
      intro h; apply hS; rw [if_neg]; simp [h]
    have hmM : m ≤ M := by
      have h1 : m ≤ r := le_trans (min_le_left _ b) (min_le_left r g)
      have h2 : r ≤ M := le_trans (le_max_left r g) (le_max_left _ b)
      omega
    have hMm : m ≠ M := by
      intro h; apply hS; rw [if_pos hMne, h]; simp
    have hD : (0 : ℚ) < ((M - m : ℤ) : ℚ) := by
      have : (0 : ℤ) < M - m := by omega
      exact_mod_cast this
    have hrM : r ≤ M := le_trans (le_max_left r g) (le_max_left _ b)
    have hgM : g ≤ M := le_trans (le_max_right r g) (le_max_left _ b)
    have hbM : b ≤ M := le_max_right _ b
    have hmr : m ≤ r := le_trans (min_le_left _ b) (min_le_left r g)
    have hmg : m ≤ g := le_trans (min_le_left _ b) (min_le_right r g)
    have hmb : m ≤ b := min_le_right _ b
    set X : ℚ := (if r = M then
          ((M - b : ℤ) : ℚ) / ((M - m : ℤ) : ℚ) - ((M - g : ℤ) : ℚ) / ((M - m : ℤ) : ℚ)
        else if g = M then
          2 + ((M - r : ℤ) : ℚ) / ((M - m : ℤ) : ℚ) - ((M - b : ℤ) : ℚ) / ((M - m : ℤ) : ℚ)
        else
          4 + ((M - g : ℤ) : ℚ) / ((M - m : ℤ) : ℚ) - ((M - r : ℤ) : ℚ) / ((M - m : ℤ) : ℚ))
      with hX
    have key : -1 ≤ X ∧ X ≤ 5 := by
      have hgb : ((M - b : ℤ) : ℚ) / ((M - m : ℤ) : ℚ) - ((M - g : ℤ) : ℚ) / ((M - m : ℤ) : ℚ)
          = ((g - b : ℤ) : ℚ) / ((M - m : ℤ) : ℚ) := by
        rw [div_sub_div_same]; congr 1; push_cast; ring
      have hbr : (2 : ℚ) + ((M - r : ℤ) : ℚ) / ((M - m : ℤ) : ℚ)
            - ((M - b : ℤ) : ℚ) / ((M - m : ℤ) : ℚ)
          = 2 + ((b - r : ℤ) : ℚ) / ((M - m : ℤ) : ℚ) := by
        rw [add_sub_assoc, div_sub_div_same]
        congr 2; push_cast; ring
      have hrg : (4 : ℚ) + ((M - g : ℤ) : ℚ) / ((M - m : ℤ) : ℚ)
            - ((M - r : ℤ) : ℚ) / ((M - m : ℤ) : ℚ)
          = 4 + ((r - g : ℤ) : ℚ) / ((M - m : ℤ) : ℚ) := by
        rw [add_sub_assoc, div_sub_div_same]
        congr 2; push_cast; ring
      rw [hX]
      split_ifs with h1 h2
      · rw [hgb]
        have := div_bounds hD (x := ((g - b : ℤ) : ℚ))
          (by rw [neg_le, show (-((g - b : ℤ) : ℚ)) = ((b - g : ℤ) : ℚ) by push_cast; ring]
              exact_mod_cast (by omega : (b - g : ℤ) ≤ M - m))
          (by exact_mod_cast (by omega : (g - b : ℤ) ≤ M - m))
        constructor <;> linarith [this.1, this.2]
      · rw [hbr]
        have := div_bounds hD (x := ((b - r : ℤ) : ℚ))
          (by rw [neg_le, show (-((b - r : ℤ) : ℚ)) = ((r - b : ℤ) : ℚ) by push_cast; ring]
              exact_mod_cast (by omega : (r - b : ℤ) ≤ M - m))
          (by exact_mod_cast (by omega : (b - r : ℤ) ≤ M - m))
        constructor <;> linarith [this.1, this.2]
      · rw [hrg]
        have := div_bounds hD (x := ((r - g : ℤ) : ℚ))
          (by rw [neg_le, show (-((r - g : ℤ) : ℚ)) = ((g - r : ℤ) : ℚ) by push_cast; ring]
              exact_mod_cast (by omega : (g - r : ℤ) ≤ M - m))
          (by exact_mod_cast (by omega : (r - g : ℤ) ≤ M - m))
        constructor <;> linarith [this.1, this.2]
    constructor
    · split_ifs with h <;> linarith [key.1, key.2]
    · split_ifs with h <;> linarith [key.1, key.2]

lemma rgbToHsb_eq_hsbSpec (r g b : ℤ) : RGBtoHSB r g b = hsbSpec r g b := by
  simp only [RGBtoHSB, hsbSpec]
  rw [max_assoc, min_assoc]
  set mx : ℤ := max r (max g b) with hmx
  set mn : ℤ := min r (min g b) with hmn
  have hsat : (if mx ≠ 0 then ((mx - mn : ℤ) : ℚ) / (mx : ℚ) else 0)
      = (if mx = 0 then 0 else ((mx : ℚ) - (mn : ℚ)) / (mx : ℚ)) := by
    by_cases h : mx = 0
    · simp [h]
    · rw [if_pos h, if_neg h]; push_cast; ring
  rw [hsat]
  simp only [HSB.mk.injEq]
  refine ⟨?_, trivial, trivial⟩
  by_cases hseq : (if mx = 0 then (0 : ℚ) else ((mx : ℚ) - (mn : ℚ)) / (mx : ℚ)) = 0
  · rw [if_pos hseq, if_pos hseq]
  · rw [if_neg hseq, if_neg hseq]
    have h0 :
        (if r = mx then
            ((mx - b : ℤ) : ℚ) / ((mx - mn : ℤ) : ℚ) - ((mx - g : ℤ) : ℚ) / ((mx - mn : ℤ) : ℚ)
          else if g = mx then
            2 + ((mx - r : ℤ) : ℚ) / ((mx - mn : ℤ) : ℚ)
              - ((mx - b : ℤ) : ℚ) / ((mx - mn : ℤ) : ℚ)
          else
            4 + ((mx - g : ℤ) : ℚ) / ((mx - mn : ℤ) : ℚ)
              - ((mx - r : ℤ) : ℚ) / ((mx - mn : ℤ) : ℚ))
        = (if r = mx then
            ((mx : ℚ) - (b : ℚ)) / ((mx : ℚ) - (mn : ℚ))
              - ((mx : ℚ) - (g : ℚ)) / ((mx : ℚ) - (mn : ℚ))
          else if g = mx then
            2 + ((mx : ℚ) - (r : ℚ)) / ((mx : ℚ) - (mn : ℚ))
              - ((mx : ℚ) - (b : ℚ)) / ((mx : ℚ) - (mn : ℚ))
          else
            4 + ((mx : ℚ) - (g : ℚ)) / ((mx : ℚ) - (mn : ℚ))
              - ((mx : ℚ) - (r : ℚ)) / ((mx : ℚ) - (mn : ℚ))) := by
      split_ifs <;> push_cast <;> ring
    rw [h0]

/-- C2: for every input (r,g,b) with each component in [0,255], `rgbToHsb`
returns brightness = max(r,g,b)/255; saturation = 0 when the max component is
0 and (max-min)/max otherwise; and hue = 0 when saturation is 0, otherwise
the standard six-sector value (blueTerm-greenTerm when r is max,
2+redTerm-blueTerm when g is max, 4+greenTerm-redTerm when b is max) divided
by 6 and wrapped into [0,1) by adding 1 if negative — all as captured by the
spec-side definition `hsbSpec`. -/
theorem rgbToHsb_matches_six_sector_formula (r g b : ℤ)
    (hr : 0 ≤ r ∧ r ≤ 255) (hg : 0 ≤ g ∧ g ≤ 255) (hb : 0 ≤ b ∧ b ≤ 255) :
    RGBtoHSB r g b = hsbSpec r g b :=
  rgbToHsb_eq_hsbSpec r g b

theorem rgbToHsb_matches_six_sector_formula_witness :
    ((0 : ℤ) ≤ 10 ∧ (10 : ℤ) ≤ 255) ∧ ((0 : ℤ) ≤ 20 ∧ (20 : ℤ) ≤ 255) ∧
      ((0 : ℤ) ≤ 30 ∧ (30 : ℤ) ≤ 255) ∧ RGBtoHSB 10 20 30 = hsbSpec 10 20 30 :=
  ⟨⟨by decide, by decide⟩, ⟨by decide, by decide⟩, ⟨by decide, by decide⟩,
    rgbToHsb_matches_six_sector_formula 10 20 30 ⟨by decide, by decide⟩
      ⟨by decide, by decide⟩ ⟨by decide, by decide⟩⟩

example : RGBtoHSB 255 0 0 = ⟨0, 1, 1⟩ := by norm_num [RGBtoHSB]
example : RGBtoHSB 0 255 0 = ⟨1/3, 1, 1⟩ := by norm_num [RGBtoHSB]
example : RGBtoHSB 0 0 255 = ⟨2/3, 1, 1⟩ := by norm_num [RGBtoHSB]
example : RGBtoHSB 0 0 0 = ⟨0, 0, 0⟩ := by norm_num [RGBtoHSB]
example : HSBtoRGBChannels (1/3) 1 1 = (0, 255, 0) := by
  norm_num [HSBtoRGBChannels, truncQ]
example : HSBtoRGBChannels (RGBtoHSB 200 100 50).hue (RGBtoHSB 200 100 50).saturation
    (RGBtoHSB 200 100 50).brightness = (200, 100, 50) := by
  norm_num [RGBtoHSB, HSBtoRGBChannels, truncQ]

lemma truncQ_of_nonneg (x : ℚ) (h : 0 ≤ x) : truncQ x = ⌊x⌋ := by
  unfold truncQ; rw [if_neg (not_lt.mpr h)]

lemma truncQ_intCast_add_half (n : ℤ) (hn : 0 ≤ n) : truncQ ((n : ℚ) + 1/2) = n := by
  have hn' : (0 : ℚ) ≤ (n : ℚ) := by exact_mod_cast hn
  rw [truncQ_of_nonneg _ (by linarith)]
  rw [Int.floor_eq_iff]
  constructor <;> [linarith; push_cast] <;> linarith

/-- On a saturated input with hue in `[0,1)`, `HSBtoRGBChannels` picks the
sector `⌊hue * 6⌋`; the `(int) h` truncation agrees with the floor because
`h ≥ 0`. -/
lemma HSBtoRGBChannels_sector (hue sat v : ℚ) (hs : sat ≠ 0)
    (h0 : 0 ≤ hue) (h1 : hue < 1) :
    HSBtoRGBChannels hue sat v =
      (let h : ℚ := hue * 6
       let f : ℚ := h - ⌊h⌋
       let p : ℚ := v * (1 - sat)
       let q : ℚ := v * (1 - sat * f)
       let t : ℚ := v * (1 - sat * (1 - f))
       let sector : ℤ := ⌊h⌋
       if sector = 0 then
         (truncQ (v * 255 + 1/2), truncQ (t * 255 + 1/2), truncQ (p * 255 + 1/2))
       else if sector = 1 then
         (truncQ (q * 255 + 1/2), truncQ (v * 255 + 1/2), truncQ (p * 255 + 1/2))
       else if sector = 2 then
         (truncQ (p * 255 + 1/2), truncQ (v * 255 + 1/2), truncQ (t * 255 + 1/2))
       else if sector = 3 then
         (truncQ (p * 255 + 1/2), truncQ (q * 255 + 1/2), truncQ (v * 255 + 1/2))
       else if sector = 4 then
         (truncQ (t * 255 + 1/2), truncQ (p * 255 + 1/2), truncQ (v * 255 + 1/2))
       else if sector = 5 then
         (truncQ (v * 255 + 1/2), truncQ (p * 255 + 1/2), truncQ (q * 255 + 1/2))
       else (0, 0, 0)) := by
  unfold HSBtoRGBChannels
  rw [if_neg hs]
  have hfl : ⌊hue⌋ = 0 := by
    rw [Int.floor_eq_iff] <;> simp <;> constructor <;> [exact h0; simpa using h1]
  rw [hfl]
  simp only [Int.cast_zero, sub_zero]
  rw [truncQ_of_nonneg (hue * 6) (by linarith)]

lemma truncQ_eq_of (x : ℚ) (n : ℤ) (hn : 0 ≤ n) (hx : x = (n : ℚ) + 1/2) :
    truncQ x = n := by
  rw [hx]; exact truncQ_intCast_add_half n hn

lemma floor_add_of (c : ℚ) (k : ℤ) (h0 : (k : ℚ) ≤ c) (h1 : c < (k : ℚ) + 1) :
    ⌊c⌋ = k := by
  rw [Int.floor_eq_iff]
  exact ⟨h0, by push_cast; linarith⟩

lemma RGBtoHSB_hue_param (r g b M m : ℤ) (hM : M = max (max r g) b)
    (hm : m = min (min r g) b) :
    (RGBtoHSB r g b).hue =
      if (RGBtoHSB r g b).saturation = 0 then 0
      else
        if (if r = M then
              ((M - b : ℤ) : ℚ) / ((M - m : ℤ) : ℚ) - ((M - g : ℤ) : ℚ) / ((M - m : ℤ) : ℚ)
            else if g = M then
              2 + ((M - r : ℤ) : ℚ) / ((M - m : ℤ) : ℚ)
                - ((M - b : ℤ) : ℚ) / ((M - m : ℤ) : ℚ)
            else
              4 + ((M - g : ℤ) : ℚ) / ((M - m : ℤ) : ℚ)
                - ((M - r : ℤ) : ℚ) / ((M - m : ℤ) : ℚ)) / 6 < 0 then
          (if r = M then
              ((M - b : ℤ) : ℚ) / ((M - m : ℤ) : ℚ) - ((M - g : ℤ) : ℚ) / ((M - m : ℤ) : ℚ)
            else if g = M then
              2 + ((M - r : ℤ) : ℚ) / ((M - m : ℤ) : ℚ)
                - ((M - b : ℤ) : ℚ) / ((M - m : ℤ) : ℚ)
            else
              4 + ((M - g : ℤ) : ℚ) / ((M - m : ℤ) : ℚ)
                - ((M - r : ℤ) : ℚ) / ((M - m : ℤ) : ℚ)) / 6 + 1
        else
          (if r = M then
              ((M - b : ℤ) : ℚ) / ((M - m : ℤ) : ℚ) - ((M - g : ℤ) : ℚ) / ((M - m : ℤ) : ℚ)
            else if g = M then
              2 + ((M - r : ℤ) : ℚ) / ((M - m : ℤ) : ℚ)
                - ((M - b : ℤ) : ℚ) / ((M - m : ℤ) : ℚ)
            else
              4 + ((M - g : ℤ) : ℚ) / ((M - m : ℤ) : ℚ)
                - ((M - r : ℤ) : ℚ) / ((M - m : ℤ) : ℚ)) / 6 := by
  subst hM; subst hm; rfl

set_option maxHeartbeats 1600000

/-- Exact round-trip: on saturated inputs the converter pair inverts exactly
in the rational model, so the spec's ±1 tolerance holds with room to spare. -/
lemma roundTrip_core (r g b M m : ℤ) (hM : M = max (max r g) b)
    (hm : m = min (min r g) b) (hr : 0 ≤ r) (hg : 0 ≤ g) (hb : 0 ≤ b)
    (hMpos : 0 < M) (hmM : m < M) :
    HSBtoRGBChannels (RGBtoHSB r g b).hue (RGBtoHSB r g b).saturation
      (RGBtoHSB r g b).brightness = (r, g, b) := by
  have hrM : r ≤ M := hM ▸ le_trans (le_max_left r g) (le_max_left _ b)
  have hgM : g ≤ M := hM ▸ le_trans (le_max_right r g) (le_max_left _ b)
  have hbM : b ≤ M := hM ▸ le_max_right _ b
  have hmr : m ≤ r := hm ▸ le_trans (min_le_left _ b) (min_le_left r g)
  have hmg : m ≤ g := hm ▸ le_trans (min_le_left _ b) (min_le_right r g)
  have hmb : m ≤ b := hm ▸ min_le_right _ b
  have hM0 : M ≠ 0 := by omega
  have hMQ : (0 : ℚ) < ((M : ℤ) : ℚ) := by exact_mod_cast hMpos
  have hDQ : (0 : ℚ) < ((M - m : ℤ) : ℚ) := by
    exact_mod_cast (by omega : (0 : ℤ) < M - m)
  have hMne : ((M : ℤ) : ℚ) ≠ 0 := ne_of_gt hMQ
  have hDne : ((M - m : ℤ) : ℚ) ≠ 0 := ne_of_gt hDQ
  have hsat : (RGBtoHSB r g b).saturation = ((M - m : ℤ) : ℚ) / ((M : ℤ) : ℚ) := by
    rw [RGBtoHSB_saturation, ← hM, ← hm, if_pos hM0]
  have hsne : (RGBtoHSB r g b).saturation ≠ 0 := by
    rw [hsat]; exact ne_of_gt (div_pos hDQ hMQ)
  have hsne' : ((M - m : ℤ) : ℚ) / ((M : ℤ) : ℚ) ≠ 0 := ne_of_gt (div_pos hDQ hMQ)
  have hv : (RGBtoHSB r g b).brightness = ((M : ℤ) : ℚ) / 255 := by
    rw [RGBtoHSB_brightness, ← hM]
  have hBnds := hue_nonneg_lt_one r g b
  have hDne2 : ((M : ℚ) - (m : ℚ)) ≠ 0 := by exact_mod_cast hDne
  have hMne2 : ((M : ℚ)) ≠ 0 := hMne
  by_cases h1 : r = M
  · -- red is the max channel
    have hA : ((M - b : ℤ) : ℚ) / ((M - m : ℤ) : ℚ) - ((M - g : ℤ) : ℚ) / ((M - m : ℤ) : ℚ)
        = ((g - b : ℤ) : ℚ) / ((M - m : ℤ) : ℚ) := by
      rw [div_sub_div_same]; congr 1; push_cast; ring
    by_cases h2 : b ≤ g
    · -- g ≥ b, so cmin = b
      have hmEq : b = m := by
        have h4 : min r g = g := min_eq_right (by omega)
        rw [hm, h4, min_eq_right h2]
      subst hmEq
      have hgb' : (0 : ℚ) ≤ ((g - b : ℤ) : ℚ) := by
        exact_mod_cast (by omega : (0 : ℤ) ≤ g - b)
      have hhue : (RGBtoHSB r g b).hue = ((g - b : ℤ) : ℚ) / ((M - b : ℤ) : ℚ) / 6 := by
        rw [RGBtoHSB_hue_param r g b M b hM hm, if_neg hsne, if_pos h1, hA,
          if_neg (not_lt.mpr (by positivity))]
      rw [hhue] at hBnds
      rw [hhue, hsat, hv, HSBtoRGBChannels_sector _ _ _ hsne' hBnds.1 hBnds.2]
      dsimp only
      by_cases h3 : g = M
      · -- g = r = M: h lands exactly on the sector-1 boundary
        have hsec : ⌊((g - b : ℤ) : ℚ) / ((M - b : ℤ) : ℚ) / 6 * 6⌋ = 1 := by
          rw [div_mul_cancel₀ _ (by norm_num : (6 : ℚ) ≠ 0),
            show ((g - b : ℤ) : ℚ) = ((M - b : ℤ) : ℚ) by
              exact_mod_cast congrArg (Int.cast : ℤ → ℚ) (by omega : g - b = M - b),
            div_self hDne]
          exact Int.floor_one
        rw [hsec, if_neg (by decide), if_pos rfl]
        simp only [Prod.mk.injEq]
        refine ⟨?_, ?_, ?_⟩
        · refine truncQ_eq_of _ r (by omega) ?_
          rw [h1, h3]; push_cast; field_simp
        · refine truncQ_eq_of _ g (by omega) ?_
          rw [h3]; push_cast; field_simp
        · refine truncQ_eq_of _ b (by omega) ?_
          push_cast; field_simp; ring
      · -- g < M: sector 0
        have hglt : g < M := by omega
        have hsec : ⌊((g - b : ℤ) : ℚ) / ((M - b : ℤ) : ℚ) / 6 * 6⌋ = 0 := by
          rw [div_mul_cancel₀ _ (by norm_num : (6 : ℚ) ≠ 0)]
          refine floor_add_of _ 0 (by simpa using div_nonneg hgb' hDQ.le) ?_
          have hlt : ((g - b : ℤ) : ℚ) / ((M - b : ℤ) : ℚ) < 1 := by
            rw [div_lt_one hDQ]
            exact_mod_cast (by omega : (g - b : ℤ) < M - b)
          push_cast at hlt ⊢
          linarith
        rw [hsec, if_pos rfl]
        simp only [Prod.mk.injEq]
        refine ⟨?_, ?_, ?_⟩
        · refine truncQ_eq_of _ r (by omega) ?_
          rw [h1]; push_cast; field_simp
        · refine truncQ_eq_of _ g (by omega) ?_
          push_cast; field_simp; ring
        · refine truncQ_eq_of _ b (by omega) ?_
          push_cast; field_simp; ring
    · -- b > g, so cmin = g: wrap adds one, sector 5
      have hmEq : g = m := by
        have h4 : min r g = g := min_eq_right (by omega)
        rw [hm, h4, min_eq_left (by omega)]
      subst hmEq
      have hneg : ((g - b : ℤ) : ℚ) < 0 := by
        exact_mod_cast (by omega : (g - b : ℤ) < 0)
      have hx := div_bounds hDQ (x := ((g - b : ℤ) : ℚ))
        (by
          rw [neg_le, show (-((g - b : ℤ) : ℚ)) = ((b - g : ℤ) : ℚ) by push_cast; ring]
          exact_mod_cast (by omega : (b - g : ℤ) ≤ M - g))
        (by exact_mod_cast (by omega : (g - b : ℤ) ≤ M - g))
      have hxneg : ((g - b : ℤ) : ℚ) / ((M - g : ℤ) : ℚ) < 0 :=
        div_neg_of_neg_of_pos hneg hDQ
      have hhue : (RGBtoHSB r g b).hue
          = ((g - b : ℤ) : ℚ) / ((M - g : ℤ) : ℚ) / 6 + 1 := by
        rw [RGBtoHSB_hue_param r g b M g hM hm, if_neg hsne, if_pos h1, hA,
          if_pos (by
            have : ((g - b : ℤ) : ℚ) / ((M - g : ℤ) : ℚ) / 6 < 0 :=
              div_neg_of_neg_of_pos hxneg (by norm_num)
            linarith)]
      rw [hhue] at hBnds
      rw [hhue, hsat, hv, HSBtoRGBChannels_sector _ _ _ hsne' hBnds.1 hBnds.2]
      dsimp only
      have hsec : ⌊(((g - b : ℤ) : ℚ) / ((M - g : ℤ) : ℚ) / 6 + 1) * 6⌋ = 5 := by
        rw [show ((((g - b : ℤ) : ℚ) / ((M - g : ℤ) : ℚ) / 6 + 1) * 6)
            = ((g - b : ℤ) : ℚ) / ((M - g : ℤ) : ℚ) + 6 by ring]
        refine floor_add_of _ 5 ?_ ?_
        · have hx1 := hx.1; push_cast at hx1 ⊢; linarith
        · have hx2 := hxneg; push_cast at hx2 ⊢; linarith
      rw [hsec, if_neg (by decide), if_neg (by decide), if_neg (by decide),
        if_neg (by decide), if_neg (by decide), if_pos rfl]
      simp only [Prod.mk.injEq]
      refine ⟨?_, ?_, ?_⟩
      · refine truncQ_eq_of _ r (by omega) ?_
        rw [h1]; push_cast; field_simp
      · refine truncQ_eq_of _ g (by omega) ?_
        push_cast; field_simp; ring
      · refine truncQ_eq_of _ b (by omega) ?_
        push_cast; field_simp; ring
  · by_cases h2g : g = M
    · -- green is the max channel
      have hB : (2 : ℚ) + ((M - r : ℤ) : ℚ) / ((M - m : ℤ) : ℚ)
            - ((M - b : ℤ) : ℚ) / ((M - m : ℤ) : ℚ)
          = 2 + ((b - r : ℤ) : ℚ) / ((M - m : ℤ) : ℚ) := by
        rw [add_sub_assoc, div_sub_div_same]
        congr 2; push_cast; ring
      have hx := div_bounds hDQ (x := ((b - r : ℤ) : ℚ))
        (by
          rw [neg_le, show (-((b - r : ℤ) : ℚ)) = ((r - b : ℤ) : ℚ) by push_cast; ring]
          exact_mod_cast (by omega : (r - b : ℤ) ≤ M - m))
        (by exact_mod_cast (by omega : (b - r : ℤ) ≤ M - m))
      have hhue : (RGBtoHSB r g b).hue
          = (2 + ((b - r : ℤ) : ℚ) / ((M - m : ℤ) : ℚ)) / 6 := by
        rw [RGBtoHSB_hue_param r g b M m hM hm, if_neg hsne, if_neg h1, if_pos h2g, hB,
          if_neg (not_lt.mpr (div_nonneg (by linarith [hx.1]) (by norm_num)))]
      rw [hhue] at hBnds
      rw [hhue, hsat, hv, HSBtoRGBChannels_sector _ _ _ hsne' hBnds.1 hBnds.2]
      dsimp only
      have hmul : ((2 + ((b - r : ℤ) : ℚ) / ((M - m : ℤ) : ℚ)) / 6) * 6
          = 2 + ((b - r : ℤ) : ℚ) / ((M - m : ℤ) : ℚ) :=
        div_mul_cancel₀ _ (by norm_num)
      by_cases h3 : b = M
      · -- b = g = M: sector-3 boundary, cmin = r
        have hmEq : r = m := by
          rw [hm, min_eq_left (by omega), min_eq_left (by omega)]
        subst hmEq
        have hsec : ⌊((2 + ((b - r : ℤ) : ℚ) / ((M - r : ℤ) : ℚ)) / 6) * 6⌋ = 3 := by
          rw [hmul,
            show ((b - r : ℤ) : ℚ) = ((M - r : ℤ) : ℚ) by
              exact_mod_cast congrArg (Int.cast : ℤ → ℚ) (by omega : b - r = M - r),
            div_self hDne, show (2 + (1 : ℚ)) = ((3 : ℤ) : ℚ) by norm_num,
            Int.floor_intCast]
        rw [hsec, if_neg (by decide), if_neg (by decide), if_neg (by decide), if_pos rfl]
        simp only [Prod.mk.injEq]
        refine ⟨?_, ?_, ?_⟩
        · refine truncQ_eq_of _ r (by omega) ?_
          push_cast; field_simp; ring
        · refine truncQ_eq_of _ g (by omega) ?_
          rw [h2g, h3]; push_cast; field_simp; ring
        · refine truncQ_eq_of _ b (by omega) ?_
          rw [h3]; push_cast; field_simp
      · by_cases h4 : b < r
        · -- cmin = b, sector 1
          have hmEq : b = m := by
            rw [hm, min_eq_right (by omega)]
          subst hmEq
          have hsec : ⌊((2 + ((b - r : ℤ) : ℚ) / ((M - b : ℤ) : ℚ)) / 6) * 6⌋ = 1 := by
            rw [hmul]
            refine floor_add_of _ 1 ?_ ?_
            · have hx1 := hx.1; push_cast at hx1 ⊢; linarith
            · have hlt : ((b - r : ℤ) : ℚ) / ((M - b : ℤ) : ℚ) < 0 :=
                div_neg_of_neg_of_pos
                  (by exact_mod_cast (by omega : (b - r : ℤ) < 0)) hDQ
              push_cast at hlt ⊢; linarith
          rw [hsec, if_neg (by decide), if_pos rfl]
          simp only [Prod.mk.injEq]
          refine ⟨?_, ?_, ?_⟩
          · refine truncQ_eq_of _ r (by omega) ?_
            push_cast; field_simp; ring
          · refine truncQ_eq_of _ g (by omega) ?_
            rw [h2g]; push_cast; field_simp
          · refine truncQ_eq_of _ b (by omega) ?_
            push_cast; field_simp; ring
        · -- r ≤ b < M: cmin = r, sector 2
          have hmEq : r = m := by
            rw [hm, min_eq_left (by omega), min_eq_left (by omega)]
          subst hmEq
          have hsec : ⌊((2 + ((b - r : ℤ) : ℚ) / ((M - r : ℤ) : ℚ)) / 6) * 6⌋ = 2 := by
            rw [hmul]
            refine floor_add_of _ 2 ?_ ?_
            · have hge : (0 : ℚ) ≤ ((b - r : ℤ) : ℚ) / ((M - r : ℤ) : ℚ) :=
                div_nonneg (by exact_mod_cast (by omega : (0 : ℤ) ≤ b - r)) hDQ.le
              push_cast at hge ⊢; linarith
            · have hlt : ((b - r : ℤ) : ℚ) / ((M - r : ℤ) : ℚ) < 1 := by
                rw [div_lt_one hDQ]
                exact_mod_cast (by omega : (b - r : ℤ) < M - r)
              push_cast at hlt ⊢; linarith
          rw [hsec, if_neg (by decide), if_neg (by decide), if_pos rfl]
          simp only [Prod.mk.injEq]
          refine ⟨?_, ?_, ?_⟩
          · refine truncQ_eq_of _ r (by omega) ?_
            push_cast; field_simp; ring
          · refine truncQ_eq_of _ g (by omega) ?_
            rw [h2g]; push_cast; field_simp
          · refine truncQ_eq_of _ b (by omega) ?_
            push_cast; field_simp; ring
    · -- neither r nor g is the max, so b is
      have hb3 : b = M := by
        rcases max_cases (max r g) b with ⟨he, _⟩ | ⟨he, _⟩
        · rcases max_cases r g with ⟨he2, _⟩ | ⟨he2, _⟩
          · exact absurd (show r = M by rw [hM, he, he2]) h1
          · exact absurd (show g = M by rw [hM, he, he2]) h2g
        · rw [hM, he]
      have hC : (4 : ℚ) + ((M - g : ℤ) : ℚ) / ((M - m : ℤ) : ℚ)
            - ((M - r : ℤ) : ℚ) / ((M - m : ℤ) : ℚ)
          = 4 + ((r - g : ℤ) : ℚ) / ((M - m : ℤ) : ℚ) := by
        rw [add_sub_assoc, div_sub_div_same]
        congr 2; push_cast; ring
      have hx := div_bounds hDQ (x := ((r - g : ℤ) : ℚ))
        (by
          rw [neg_le, show (-((r - g : ℤ) : ℚ)) = ((g - r : ℤ) : ℚ) by push_cast; ring]
          exact_mod_cast (by omega : (g - r : ℤ) ≤ M - m))
        (by exact_mod_cast (by omega : (r - g : ℤ) ≤ M - m))
      have hhue : (RGBtoHSB r g b).hue
          = (4 + ((r - g : ℤ) : ℚ) / ((M - m : ℤ) : ℚ)) / 6 := by
        rw [RGBtoHSB_hue_param r g b M m hM hm, if_neg hsne, if_neg h1, if_neg h2g, hC,
          if_neg (not_lt.mpr (div_nonneg (by linarith [hx.1]) (by norm_num)))]
      rw [hhue] at hBnds
      rw [hhue, hsat, hv, HSBtoRGBChannels_sector _ _ _ hsne' hBnds.1 hBnds.2]
      dsimp only
      have hmul : ((4 + ((r - g : ℤ) : ℚ) / ((M - m : ℤ) : ℚ)) / 6) * 6
          = 4 + ((r - g : ℤ) : ℚ) / ((M - m : ℤ) : ℚ) :=
        div_mul_cancel₀ _ (by norm_num)
      by_cases h4 : r < g
      · -- cmin = r, sector 3
        have hmEq : r = m := by
          rw [hm, min_eq_left (by omega), min_eq_left (by omega)]
        subst hmEq
        have hsec : ⌊((4 + ((r - g : ℤ) : ℚ) / ((M - r : ℤ) : ℚ)) / 6) * 6⌋ = 3 := by
          rw [hmul]
          refine floor_add_of _ 3 ?_ ?_
          · have hx1 := hx.1; push_cast at hx1 ⊢; linarith
          · have hlt : ((r - g : ℤ) : ℚ) / ((M - r : ℤ) : ℚ) < 0 :=
              div_neg_of_neg_of_pos
                (by exact_mod_cast (by omega : (r - g : ℤ) < 0)) hDQ
            push_cast at hlt ⊢; linarith
        rw [hsec, if_neg (by decide), if_neg (by decide), if_neg (by decide), if_pos rfl]
        simp only [Prod.mk.injEq]
        refine ⟨?_, ?_, ?_⟩
        · refine truncQ_eq_of _ r (by omega) ?_
          push_cast; field_simp; ring
        · refine truncQ_eq_of _ g (by omega) ?_
          push_cast; field_simp; ring
        · refine truncQ_eq_of _ b (by omega) ?_
          rw [hb3]; push_cast; field_simp
      · -- cmin = g, sector 4
        have hmEq : g = m := by
          rw [hm, min_eq_left (by omega), min_eq_right (by omega)]
        subst hmEq
        have hsec : ⌊((4 + ((r - g : ℤ) : ℚ) / ((M - g : ℤ) : ℚ)) / 6) * 6⌋ = 4 := by
          rw [hmul]
          refine floor_add_of _ 4 ?_ ?_
          · have hge : (0 : ℚ) ≤ ((r - g : ℤ) : ℚ) / ((M - g : ℤ) : ℚ) :=
              div_nonneg (by exact_mod_cast (by omega : (0 : ℤ) ≤ r - g)) hDQ.le
            push_cast at hge ⊢; linarith
          · have hlt : ((r - g : ℤ) : ℚ) / ((M - g : ℤ) : ℚ) < 1 := by
              rw [div_lt_one hDQ]
              exact_mod_cast (by omega : (r - g : ℤ) < M - g)
            push_cast at hlt ⊢; linarith
        rw [hsec, if_neg (by decide), if_neg (by decide), if_neg (by decide),
          if_neg (by decide), if_pos rfl]
        simp only [Prod.mk.injEq]
        refine ⟨?_, ?_, ?_⟩
        · refine truncQ_eq_of _ r (by omega) ?_
          push_cast; field_simp; ring
        · refine truncQ_eq_of _ g (by omega) ?_
          push_cast; field_simp; ring
        · refine truncQ_eq_of _ b (by omega) ?_
          rw [hb3]; push_cast; field_simp

/-- C5: for all (r,g,b) in [0,255]^3 whose saturation under `rgbToHsb` is
greater than 0, `hsbToRgb` applied to `rgbToHsb(r,g,b)` reproduces (r,g,b)
with each output channel within ±1 of the corresponding input channel (the
exact-arithmetic model in fact reproduces the input exactly). -/
theorem hsbToRgb_roundTrip_within_one (r g b : ℤ)
    (hr : 0 ≤ r ∧ r ≤ 255) (hg : 0 ≤ g ∧ g ≤ 255) (hb : 0 ≤ b ∧ b ≤ 255)
    (hs : 0 < (RGBtoHSB r g b).saturation) :
    |(HSBtoRGBChannels (RGBtoHSB r g b).hue (RGBtoHSB r g b).saturation
        (RGBtoHSB r g b).brightness).1 - r| ≤ 1 ∧
      |(HSBtoRGBChannels (RGBtoHSB r g b).hue (RGBtoHSB r g b).saturation
        (RGBtoHSB r g b).brightness).2.1 - g| ≤ 1 ∧
      |(HSBtoRGBChannels (RGBtoHSB r g b).hue (RGBtoHSB r g b).saturation
        (RGBtoHSB r g b).brightness).2.2 - b| ≤ 1 := by
  have hM0 : max (max r g) b ≠ 0 := by
    intro h0
    rw [RGBtoHSB_saturation, if_neg (not_not_intro h0)] at hs
    exact lt_irrefl 0 hs
  have hMpos : 0 < max (max r g) b :=
    lt_of_le_of_ne
      (le_trans hr.1 (le_trans (le_max_left r g) (le_max_left _ b))) (Ne.symm hM0)
  rw [RGBtoHSB_saturation, if_pos hM0] at hs
  have hMQ : (0 : ℚ) < ((max (max r g) b : ℤ) : ℚ) := by exact_mod_cast hMpos
  have hDpos : (0 : ℚ) < ((max (max r g) b - min (min r g) b : ℤ) : ℚ) := by
    by_contra hc
    push_neg at hc
    have := div_nonpos_of_nonpos_of_nonneg hc hMQ.le
    linarith
  have hmM : min (min r g) b < max (max r g) b := by
    have : (0 : ℤ) < max (max r g) b - min (min r g) b := by exact_mod_cast hDpos
    omega
  have hcore := roundTrip_core r g b (max (max r g) b) (min (min r g) b) rfl rfl
    hr.1 hg.1 hb.1 hMpos hmM
  rw [hcore]
  norm_num

theorem hsbToRgb_roundTrip_within_one_witness :
    (((0 : ℤ) ≤ 200 ∧ (200 : ℤ) ≤ 255) ∧ ((0 : ℤ) ≤ 100 ∧ (100 : ℤ) ≤ 255) ∧
        ((0 : ℤ) ≤ 50 ∧ (50 : ℤ) ≤ 255) ∧ 0 < (RGBtoHSB 200 100 50).saturation) ∧
      |(HSBtoRGBChannels (RGBtoHSB 200 100 50).hue (RGBtoHSB 200 100 50).saturation
        (RGBtoHSB 200 100 50).brightness).1 - 200| ≤ 1 ∧
      |(HSBtoRGBChannels (RGBtoHSB 200 100 50).hue (RGBtoHSB 200 100 50).saturation
        (RGBtoHSB 200 100 50).brightness).2.1 - 100| ≤ 1 ∧
      |(HSBtoRGBChannels (RGBtoHSB 200 100 50).hue (RGBtoHSB 200 100 50).saturation
        (RGBtoHSB 200 100 50).brightness).2.2 - 50| ≤ 1 :=
  ⟨⟨⟨by decide, by decide⟩, ⟨by decide, by decide⟩, ⟨by decide, by decide⟩,
      by norm_num [RGBtoHSB]⟩,
    hsbToRgb_roundTrip_within_one 200 100 50 ⟨by decide, by decide⟩
      ⟨by decide, by decide⟩ ⟨by decide, by decide⟩ (by norm_num [RGBtoHSB])⟩

/-! ## The pixel buffer, the sampling loops and the aggregation step -/

/-- Windows `GetRValue`: the least-significant byte of a 32-bit pixel value
(`Windows.h`, external to the repository). -/
def GetRValue (c : ℕ) : ℕ := c % 256

/-- Windows `GetGValue`: the second byte. -/
def GetGValue (c : ℕ) : ℕ := c / 256 % 256

/-- Windows `GetBValue`: the third byte. -/
def GetBValue (c : ℕ) : ℕ := c / 65536 % 256

/-- An RGB color of the screen, as the spec's Capture Provider delivers it
(spec §4.2: "produce a downsampled RGB pixel grid"). -/
structure Color where
  red : ℕ
  green : ℕ
  blue : ℕ
deriving DecidableEq

/-- Modelled from the spec: the Capture Provider — the platform's
`StretchBlt`/`GetDIBits` path, which is not part of this repository's
sources — fills `g_pixelBuffer` with 32-bit device-independent-bitmap
pixels. In that layout the blue channel occupies the least-significant byte,
green the next, red the one above (so the `GetRValue` macro, which reads the
low byte, extracts the captured color's blue channel, and `GetBValue`
extracts its red channel). -/
def dibPack (c : Color) : ℕ := c.blue + 256 * c.green + 65536 * c.red

/-- A row-major `w × h` grid as the capture leaves it in the pixel buffer:
entry `y * w + x` is the DIB packing of the screen color at `(x, y)`. -/
def buildBuffer (pix : ℕ → ℕ → Color) (w h : ℕ) : List ℕ :=
  (List.range (h * w)).map fun i => dibPack (pix (i % w) (i / w))

/-- One iteration of the sampling loop body (libambient.cpp lines 158–161):
read `g_pixelBuffer[y * w + x]` and add its three bytes to the accumulators
`(rSum, gSum, bSum)`. `none` models the undefined behaviour of reading
outside the allocated buffer. -/
def samplePixel (buf : List ℕ) (i : ℕ) (a : ℕ × ℕ × ℕ) : Option (ℕ × ℕ × ℕ) :=
  (buf.get? i).map fun c => (a.1 + GetRValue c, a.2.1 + GetGValue c, a.2.2 + GetBValue c)

/-- The nested sampling loops of `getAmbientScreenHue` (lines 154–163):
`for y in [0, h) { for x in [0, w) { … } }` over the three accumulators,
starting from `(0, 0, 0)`. -/
def channelSums (buf : List ℕ) (w h : ℕ) : Option (ℕ × ℕ × ℕ) :=
  (List.range h).foldlM
    (fun acc y => (List.range w).foldlM (fun a x => samplePixel buf (y * w + x) a) acc)
    (0, 0, 0)

/-- The aggregation step of `getAmbientScreenHue` (lines 152–174; the spec's
`computeDominantHue`, §4.4): sum the three channels over the grid, divide
each sum by `pixelCount = w * h` with C's truncating division
(`rSum /= pixelCount; …`), then call `RGBtoHSB(bSum, gSum, rSum, hsb)` —
note the source passes `bSum` in the `r` parameter slot and `rSum` in the
`b` slot — and return `hsb[0]`. `none` models undefined behaviour: an
out-of-bounds buffer read, or the division by zero when `pixelCount = 0`. -/
def computeDominantHue (buf : List ℕ) (w h : ℤ) : Option ℚ := do
  let sums ← channelSums buf w.toNat h.toNat
  let pixelCount : ℤ := w * h
  if pixelCount = 0 then none
  else
    let rSum : ℤ := Int.tdiv (sums.1 : ℤ) pixelCount
    let gSum : ℤ := Int.tdiv (sums.2.1 : ℤ) pixelCount
    let bSum : ℤ := Int.tdiv (sums.2.2 : ℤ) pixelCount
    some (RGBtoHSB bSum gSum rSum).hue

/-! ## The session lifecycle state machine

The library's state is its set of globals (libambient.cpp lines 40–57).
Heap and GDI allocations are tracked by an allocation status so that
`free`/double-`free` discipline is visible; buffer contents are carried
alongside. `Option` models undefined behaviour as before. -/

/-- Allocation status of a global pointer or GDI handle: never allocated
(all globals start as null), currently valid, or freed (dangling). -/
inductive Alloc where
  | null
  | valid
  | freed
deriving DecidableEq

/-- The globals of libambient.cpp: the four dimensions, the hue histogram
`g_hues` (360 counters) with its contents, the pixel buffer `g_pixelBuffer`
with its contents, and the GDI objects `g_hScreenDC`, `g_hMemoryDC`,
`g_hBitmap`. -/
structure LibState where
  screenWidth : ℤ
  screenHeight : ℤ
  bitmapWidth : ℤ
  bitmapHeight : ℤ
  hues : Alloc
  huesData : List ℤ
  pixelBuffer : Alloc
  pixelData : List ℕ
  hScreenDC : Alloc
  hMemoryDC : Alloc
  hBitmap : Alloc
deriving DecidableEq

/-- Process start: all globals zero-initialized, every pointer null. -/
def initialState : LibState :=
  ⟨0, 0, 0, 0, Alloc.null, [], Alloc.null, [], Alloc.null, Alloc.null, Alloc.null⟩

/-- Embedding of `clear_buffers()` (lines 59–62): `memset(g_hues, 0, 360 * sizeof(int))`.
Writing through a null or dangling pointer is undefined behaviour. -/
def clear_buffers (s : LibState) : Option LibState :=
  match s.hues with
  | Alloc.valid => some { s with huesData := List.replicate 360 0 }
  | _ => none

/-- Semantics of `free(p)`: a no-op on a null pointer, releases a valid allocation, and
is undefined behaviour (heap corruption) on an already-freed pointer. -/
def freePtr : Alloc → Option Alloc
  | Alloc.null => some Alloc.null
  | Alloc.valid => some Alloc.freed
  | Alloc.freed => none

/-- Semantics of `DeleteDC(h)`: deletes a valid device context; on an invalid handle the
call merely fails and returns FALSE, which the source ignores. -/
def deleteDC : Alloc → Alloc
  | Alloc.valid => Alloc.freed
  | a => a

/-- Embedding of `initialize(screenWidth, screenHeight, bitmapWidth,
bitmapHeight)` (lines 78–107): store the four dimensions, `malloc` the hue
histogram and the pixel buffer (the model lets both allocations succeed;
`malloc` contents are indeterminate, modelled as empty/zeroed until first
written), `clear_buffers()`, then create the screen DC, the memory DC and
the compatible bitmap. No dimension is validated and no error is ever
reported — the function returns `void`. -/
def ambientInit (screenWidth screenHeight bitmapWidth bitmapHeight : ℤ)
    (s : LibState) : Option LibState := do
  let s1 : LibState :=
    { s with
      screenWidth := screenWidth, screenHeight := screenHeight,
      bitmapWidth := bitmapWidth, bitmapHeight := bitmapHeight,
      hues := Alloc.valid, huesData := [],
      pixelBuffer := Alloc.valid,
      pixelData := List.replicate (bitmapWidth * bitmapHeight).toNat 0 }
  let s2 ← clear_buffers s1
  some { s2 with
    hScreenDC := Alloc.valid, hMemoryDC := Alloc.valid, hBitmap := Alloc.valid }

/-- Embedding of `uninitialize()` (lines 114–124): `free(g_hues)`,
`free(g_pixelBuffer)`, `DeleteDC(g_hMemoryDC)`, `DeleteDC(g_hScreenDC)`.
Note that `g_hBitmap` is never passed to `DeleteObject`. -/
def ambientUninit (s : LibState) : Option LibState := do
  let hs ← freePtr s.hues
  let pb ← freePtr s.pixelBuffer
  some { s with
    hues := hs, pixelBuffer := pb,
    hMemoryDC := deleteDC s.hMemoryDC, hScreenDC := deleteDC s.hScreenDC }

/-- Outcome of the platform capture calls inside one query: either
`GetDIBits` deposits a freshly captured grid in the pixel buffer, or the
capture fails (`StretchBlt`/`GetDIBits` return FALSE/0) and the buffer is
left with whatever it already held. The source never checks either return
value. -/
inductive CaptureOutcome where
  | ok (grid : List ℕ)
  | failed
deriving DecidableEq

/-- Embedding of `getAmbientScreenHue()` (lines 138–180).
`SelectObject`, `SetStretchBltMode` and `StretchBlt` fail gracefully on bad
handles and their results are ignored, so they have no observable effect on
the core state. `GetDIBits` writes the captured grid through
`g_pixelBuffer` when the capture succeeds: through a dangling buffer that is
undefined behaviour; with a null buffer `GetDIBits` only fills the info
header and writes nothing. The sampling loops then read the buffer (no
accessible storage behind a null or dangling pointer: any element access is
undefined), the averages are taken, `RGBtoHSB` is applied, `clear_buffers()`
runs, and `hsb[0]` is returned. -/
def getAmbientScreenHue (cap : CaptureOutcome) (s : LibState) :
    Option (ℚ × LibState) := do
  let s1 ← match cap, s.pixelBuffer with
    | CaptureOutcome.ok grid, Alloc.valid => some { s with pixelData := grid }
    | CaptureOutcome.ok _, Alloc.freed => none
    | CaptureOutcome.ok _, Alloc.null => some s
    | CaptureOutcome.failed, _ => some s
  let buf : List ℕ := match s1.pixelBuffer with
    | Alloc.valid => s1.pixelData
    | _ => []
  let hue ← computeDominantHue buf s1.bitmapWidth s1.bitmapHeight
  let s2 ← clear_buffers s1
  some (hue, s2)

/- Spec §8, aggregator mixed grid: one red and one blue pixel average to the
truncated (127, 0, 127) and the result is that color's hue 5/6 — the
average-then-convert behaviour, not an average of the two pixel hues. -/
example : computeDominantHue [dibPack ⟨255, 0, 0⟩, dibPack ⟨0, 0, 255⟩] 2 1
    = some (5/6) := by
  unfold computeDominantHue channelSums samplePixel dibPack
  norm_num [show (2 : ℤ).toNat = 2 from rfl, List.range_succ, List.foldlM_append,
    List.foldlM_cons, List.foldlM_nil, List.getElem?_cons_zero, List.getElem?_cons_succ,
    Option.bind_eq_bind, Option.some_bind, Option.map_some',
    RGBtoHSB, GetRValue, GetGValue, GetBValue, Int.tdiv]

/-! ## Evaluating the sampling loops -/

lemma foldlM_sample_eq (buf : List ℕ) (g : ℕ → ℕ) (n : ℕ) (a : ℕ × ℕ × ℕ)
    (hbnd : ∀ x, x < n → g x < buf.length) :
    (List.range n).foldlM (fun acc x => samplePixel buf (g x) acc) a
      = some (a.1 + ∑ x in Finset.range n, GetRValue (buf.getD (g x) 0),
          a.2.1 + ∑ x in Finset.range n, GetGValue (buf.getD (g x) 0),
          a.2.2 + ∑ x in Finset.range n, GetBValue (buf.getD (g x) 0)) := by
  induction n generalizing a with
  | zero => simp
  | succ n ih =>
    rw [List.range_succ, List.foldlM_append, ih a (fun x hx => hbnd x (by omega))]
    have hg : g n < buf.length := hbnd n (by omega)
    have hsome : buf.get? (g n) = some (buf.getD (g n) 0) := by
      rw [List.getD_eq_get?]
      cases hq : buf.get? (g n) with
      | none => exact absurd (List.get?_eq_none.mp hq) (by omega)
      | some v => rfl
    simp only [List.foldlM_cons, List.foldlM_nil, samplePixel, hsome, Option.map_some',
      Option.bind_eq_bind, Option.some_bind, Option.pure_def, Option.some.injEq,
      Prod.mk.injEq]
    refine ⟨?_, ?_, ?_⟩ <;> rw [Finset.sum_range_succ] <;> ring

lemma foldlM_rows_eq (buf : List ℕ) (w n : ℕ) (a : ℕ × ℕ × ℕ)
    (hbnd : ∀ y x, y < n → x < w → y * w + x < buf.length) :
    (List.range n).foldlM
        (fun acc y =>
          (List.range w).foldlM (fun a2 x => samplePixel buf (y * w + x) a2) acc) a
      = some
          (a.1 + ∑ y in Finset.range n, ∑ x in Finset.range w,
              GetRValue (buf.getD (y * w + x) 0),
            a.2.1 + ∑ y in Finset.range n, ∑ x in Finset.range w,
              GetGValue (buf.getD (y * w + x) 0),
            a.2.2 + ∑ y in Finset.range n, ∑ x in Finset.range w,
              GetBValue (buf.getD (y * w + x) 0)) := by
  induction n generalizing a with
  | zero => simp
  | succ n ih =>
    rw [List.range_succ, List.foldlM_append, ih a (fun y x hy hx => hbnd y x (by omega) hx)]
    simp only [List.foldlM_cons, List.foldlM_nil, Option.bind_eq_bind, Option.some_bind]
    rw [foldlM_sample_eq buf (fun x => n * w + x) w _ (fun x hx => hbnd n x (by omega) hx)]
    simp only [Option.pure_def, Option.bind_eq_bind, Option.some_bind, Option.some.injEq,
      Prod.mk.injEq]
    refine ⟨?_, ?_, ?_⟩ <;> rw [Finset.sum_range_succ] <;> ring

/-- The sampling loops, evaluated: when every access `y * w + x` stays inside
the buffer, the loops succeed and produce the three channel sums. -/
lemma channelSums_eval (buf : List ℕ) (w h : ℕ)
    (hbnd : ∀ y x, y < h → x < w → y * w + x < buf.length) :
    channelSums buf w h = some
      (∑ y in Finset.range h, ∑ x in Finset.range w, GetRValue (buf.getD (y * w + x) 0),
        ∑ y in Finset.range h, ∑ x in Finset.range w, GetGValue (buf.getD (y * w + x) 0),
        ∑ y in Finset.range h, ∑ x in Finset.range w, GetBValue (buf.getD (y * w + x) 0)) := by
  unfold channelSums
  rw [foldlM_rows_eq buf w h (0, 0, 0) hbnd]
  simp

lemma GetRValue_dibPack (c : Color) (hb : c.blue < 256) :
    GetRValue (dibPack c) = c.blue := by
  unfold GetRValue dibPack; omega

lemma GetGValue_dibPack (c : Color) (hb : c.blue < 256) (hg : c.green < 256) :
    GetGValue (dibPack c) = c.green := by
  unfold GetGValue dibPack; omega

lemma GetBValue_dibPack (c : Color) (hb : c.blue < 256) (hg : c.green < 256)
    (hr : c.red < 256) : GetBValue (dibPack c) = c.red := by
  unfold GetBValue dibPack; omega

lemma index_lt {x y w h : ℕ} (hx : x < w) (hy : y < h) : y * w + x < h * w := by
  calc y * w + x < y * w + w := by omega
    _ = (y + 1) * w := by ring
    _ ≤ h * w := Nat.mul_le_mul_right w (by omega)

lemma buildBuffer_length (pix : ℕ → ℕ → Color) (w h : ℕ) :
    (buildBuffer pix w h).length = h * w := by
  simp [buildBuffer]

lemma buildBuffer_getD (pix : ℕ → ℕ → Color) (w h x y : ℕ) (hx : x < w) (hy : y < h) :
    (buildBuffer pix w h).getD (y * w + x) 0 = dibPack (pix x y) := by
  have hlt : y * w + x < h * w := index_lt hx hy
  unfold buildBuffer
  rw [List.getD_eq_get?, List.get?_map, List.get?_range hlt]
  simp only [Option.map_some', Option.getD_some]
  have h1 : (y * w + x) % w = x := by
    rw [Nat.mul_comm, Nat.mul_add_mod]; exact Nat.mod_eq_of_lt hx
  have h2 : (y * w + x) / w = y := by
    rw [Nat.mul_comm, Nat.mul_add_div (by omega), Nat.div_eq_of_lt hx]
    omega
  rw [h1, h2]

/-- The reference aggregation exactly as spec §4.4 and claim C1 state it:
sum each channel over all pixels of the grid, divide each sum by the pixel
count with truncating integer division, and convert the average color to HSB
via `rgbToHsb` with red, green and blue passed in their proper channel
roles; keep the hue. -/
def dominantHueSpec (pix : ℕ → ℕ → Color) (w h : ℕ) : ℚ :=
  (RGBtoHSB
    (((∑ y in Finset.range h, ∑ x in Finset.range w, (pix x y).red) / (w * h) : ℕ) : ℤ)
    (((∑ y in Finset.range h, ∑ x in Finset.range w, (pix x y).green) / (w * h) : ℕ) : ℤ)
    (((∑ y in Finset.range h, ∑ x in Finset.range w, (pix x y).blue) / (w * h) : ℕ) : ℤ)).hue

/-- C1: for every pixel grid of positive dimensions, the aggregation step of
`getAmbientScreenHue` returns the hue of the truncating channel-average,
converted by `rgbToHsb` with the channels in their proper roles (the source's
`RGBtoHSB(bSum, gSum, rSum)` call composed with the DIB byte order delivers
the red average in the `r` slot); in particular a constant grid of color C
yields exactly the hue of `rgbToHsb(C)`. -/
theorem computeDominantHue_matches_reference (pix : ℕ → ℕ → Color) (w h : ℕ)
    (hw : 0 < w) (hh : 0 < h)
    (hbytes : ∀ x y, x < w → y < h →
      (pix x y).red < 256 ∧ (pix x y).green < 256 ∧ (pix x y).blue < 256) :
    computeDominantHue (buildBuffer pix w h) (w : ℤ) (h : ℤ)
        = some (dominantHueSpec pix w h) ∧
      ∀ C : Color, (∀ x y, x < w → y < h → pix x y = C) →
        computeDominantHue (buildBuffer pix w h) (w : ℤ) (h : ℤ)
          = some ((RGBtoHSB (C.red : ℤ) (C.green : ℤ) (C.blue : ℤ)).hue) := by
  have hbnd : ∀ y x, y < h → x < w → y * w + x < (buildBuffer pix w h).length := by
    intro y x hy hx
    rw [buildBuffer_length]
    exact index_lt hx hy
  have hR : (∑ y in Finset.range h, ∑ x in Finset.range w,
      GetRValue ((buildBuffer pix w h).getD (y * w + x) 0))
      = ∑ y in Finset.range h, ∑ x in Finset.range w, (pix x y).blue := by
    refine Finset.sum_congr rfl fun y hy => Finset.sum_congr rfl fun x hx => ?_
    rw [buildBuffer_getD pix w h x y (Finset.mem_range.mp hx) (Finset.mem_range.mp hy),
      GetRValue_dibPack _
        (hbytes x y (Finset.mem_range.mp hx) (Finset.mem_range.mp hy)).2.2]
  have hG : (∑ y in Finset.range h, ∑ x in Finset.range w,
      GetGValue ((buildBuffer pix w h).getD (y * w + x) 0))
      = ∑ y in Finset.range h, ∑ x in Finset.range w, (pix x y).green := by
    refine Finset.sum_congr rfl fun y hy => Finset.sum_congr rfl fun x hx => ?_
    have hm := hbytes x y (Finset.mem_range.mp hx) (Finset.mem_range.mp hy)
    rw [buildBuffer_getD pix w h x y (Finset.mem_range.mp hx) (Finset.mem_range.mp hy),
      GetGValue_dibPack _ hm.2.2 hm.2.1]
  have hB : (∑ y in Finset.range h, ∑ x in Finset.range w,
      GetBValue ((buildBuffer pix w h).getD (y * w + x) 0))
      = ∑ y in Finset.range h, ∑ x in Finset.range w, (pix x y).red := by
    refine Finset.sum_congr rfl fun y hy => Finset.sum_congr rfl fun x hx => ?_
    have hm := hbytes x y (Finset.mem_range.mp hx) (Finset.mem_range.mp hy)
    rw [buildBuffer_getD pix w h x y (Finset.mem_range.mp hx) (Finset.mem_range.mp hy),
      GetBValue_dibPack _ hm.2.2 hm.2.1 hm.1]
  have hne : ((w : ℤ) * (h : ℤ)) ≠ 0 := by
    have : (0 : ℤ) < (w : ℤ) * (h : ℤ) := by
      exact_mod_cast Nat.mul_pos hw hh
    omega
  have hcast : ∀ S : ℕ, Int.tdiv (S : ℤ) ((w : ℤ) * (h : ℤ)) = ((S / (w * h) : ℕ) : ℤ) := by
    intro S
    rw [show ((w : ℤ) * (h : ℤ)) = ((w * h : ℕ) : ℤ) by push_cast; ring]
    rfl
  have key : computeDominantHue (buildBuffer pix w h) (w : ℤ) (h : ℤ)
      = some (dominantHueSpec pix w h) := by
    unfold computeDominantHue
    rw [Int.toNat_natCast, Int.toNat_natCast, channelSums_eval _ _ _ hbnd]
    simp only [Option.bind_eq_bind, Option.some_bind]
    rw [if_neg hne, hR, hG, hB, hcast, hcast, hcast]
    rfl
  refine ⟨key, fun C hC => ?_⟩
  rw [key]
  unfold dominantHueSpec
  have hsum : ∀ f : Color → ℕ,
      (∑ y in Finset.range h, ∑ x in Finset.range w, f (pix x y)) / (w * h) = f C := by
    intro f
    have : (∑ y in Finset.range h, ∑ x in Finset.range w, f (pix x y))
        = w * h * f C := by
      rw [Finset.sum_congr rfl fun y hy => Finset.sum_congr rfl fun x hx => by
        rw [hC x y (Finset.mem_range.mp hx) (Finset.mem_range.mp hy)]]
      simp [Finset.sum_const, Finset.card_range]
      ring
    rw [this, Nat.mul_div_cancel_left _ (Nat.mul_pos hw hh)]
  have hRed := hsum fun c => c.red
  have hGreen := hsum fun c => c.green
  have hBlue := hsum fun c => c.blue
  rw [hRed, hGreen, hBlue]

theorem computeDominantHue_matches_reference_witness :
    computeDominantHue (buildBuffer (fun _ _ => ⟨255, 0, 0⟩) 1 1) (1 : ℤ) (1 : ℤ)
        = some (dominantHueSpec (fun _ _ => ⟨255, 0, 0⟩) 1 1) :=
  (computeDominantHue_matches_reference (fun _ _ => ⟨255, 0, 0⟩) 1 1 (by decide) (by decide)
    (by
      intro x y _ _
      exact ⟨(by decide : (255 : ℕ) < 256), (by decide : (0 : ℕ) < 256),
        (by decide : (0 : ℕ) < 256)⟩)).1

/-- C10: with both sample dimensions positive and the buffer allocated at
`sampleWidth × sampleHeight` elements (as `initialize` does), the averaging
step never divides by zero and every access `y*w + x` of the sampling loops
stays strictly inside the buffer, so the aggregation step succeeds. -/
theorem query_in_bounds_and_no_div_by_zero (bw bh : ℤ) (hbw : 0 < bw) (hbh : 0 < bh)
    (buf : List ℕ) (hlen : buf.length = (bw * bh).toNat) :
    bw * bh ≠ 0 ∧
      (∀ y x, y < bh.toNat → x < bw.toNat → y * bw.toNat + x < buf.length) ∧
      (computeDominantHue buf bw bh).isSome := by
  have hcast2 : bw * bh = ((bw.toNat * bh.toNat : ℕ) : ℤ) := by
    push_cast [Int.toNat_of_nonneg hbw.le, Int.toNat_of_nonneg hbh.le]
    ring
  have hlen' : buf.length = bh.toNat * bw.toNat := by
    rw [hlen, hcast2, Int.toNat_natCast]
    ring
  have hbnd : ∀ y x, y < bh.toNat → x < bw.toNat → y * bw.toNat + x < buf.length := by
    intro y x hy hx
    rw [hlen']
    exact index_lt hx hy
  refine ⟨ne_of_gt (mul_pos hbw hbh), hbnd, ?_⟩
  unfold computeDominantHue
  rw [channelSums_eval _ _ _ hbnd]
  simp only [Option.bind_eq_bind, Option.some_bind]
  rw [if_neg (ne_of_gt (mul_pos hbw hbh))]
  rfl

theorem query_in_bounds_and_no_div_by_zero_witness :
    ((0 : ℤ) < 1 ∧ (0 : ℤ) < 1 ∧ ([0] : List ℕ).length = ((1 : ℤ) * 1).toNat) ∧
      ((1 : ℤ) * 1 ≠ 0 ∧
        (∀ y x, y < (1 : ℤ).toNat → x < (1 : ℤ).toNat →
          y * (1 : ℤ).toNat + x < ([0] : List ℕ).length) ∧
        (computeDominantHue [0] 1 1).isSome) :=
  ⟨⟨by decide, by decide, by decide⟩,
    query_in_bounds_and_no_div_by_zero 1 1 (by decide) (by decide) [0] (by decide)⟩

/-- Any hue that the aggregation step successfully returns comes out of
`RGBtoHSB`, hence lies in `[0, 1)`. -/
lemma computeDominantHue_mem (buf : List ℕ) (w h : ℤ) (q : ℚ)
    (hq : computeDominantHue buf w h = some q) : 0 ≤ q ∧ q < 1 := by
  unfold computeDominantHue at hq
  cases hcs : channelSums buf w.toNat h.toNat with
  | none => rw [hcs] at hq; simp at hq
  | some t =>
    rw [hcs] at hq
    simp only [Option.bind_eq_bind, Option.some_bind] at hq
    by_cases hz : (w * h : ℤ) = 0
    · rw [if_pos hz] at hq; simp at hq
    · rw [if_neg hz] at hq
      simp only [Option.some.injEq] at hq
      rw [← hq]
      exact hue_nonneg_lt_one _ _ _

lemma query_tail_mem (s1 : LibState) (buf : List ℕ) (hue : ℚ) (s' : LibState)
    (h : (computeDominantHue buf s1.bitmapWidth s1.bitmapHeight).bind
        (fun q => (clear_buffers s1).bind fun s2 => some (q, s2)) = some (hue, s')) :
    0 ≤ hue ∧ hue < 1 := by
  rw [Option.bind_eq_some] at h
  obtain ⟨q, hq, h2⟩ := h
  rw [Option.bind_eq_some] at h2
  obtain ⟨s2, _, h3⟩ := h2
  simp only [Option.some.injEq, Prod.mk.injEq] at h3
  rw [← h3.1]
  exact computeDominantHue_mem _ _ _ _ hq

/-- C8: whatever hue a query successfully returns is a fraction in `[0,1)`:
never negative, never reaching 1. -/
theorem returned_hue_in_unit_interval (cap : CaptureOutcome) (s : LibState) (hue : ℚ)
    (s' : LibState) (h : getAmbientScreenHue cap s = some (hue, s')) :
    0 ≤ hue ∧ hue < 1 := by
  unfold getAmbientScreenHue at h
  cases cap with
  | ok grid =>
    cases hpb : s.pixelBuffer with
    | null =>
      rw [hpb] at h
      simp only [Option.some_bind] at h
      exact query_tail_mem _ _ _ _ h
    | valid =>
      rw [hpb] at h
      simp only [Option.some_bind] at h
      exact query_tail_mem _ _ _ _ h
    | freed =>
      rw [hpb] at h
      simp at h
  | failed =>
    simp only [Option.some_bind] at h
    exact query_tail_mem _ _ _ _ h

/-- The state right after `initialize(1, 1, 1, 1)` from process start. -/
def postInitState : LibState :=
  ⟨1, 1, 1, 1, Alloc.valid, List.replicate 360 0, Alloc.valid, [0],
    Alloc.valid, Alloc.valid, Alloc.valid⟩

lemma postInit_query_eval :
    getAmbientScreenHue CaptureOutcome.failed postInitState = some (0, postInitState) := by
  unfold getAmbientScreenHue postInitState computeDominantHue channelSums samplePixel
    clear_buffers
  norm_num [List.range_succ, RGBtoHSB, GetRValue, GetGValue, GetBValue]

theorem returned_hue_in_unit_interval_witness :
    (getAmbientScreenHue CaptureOutcome.failed postInitState = some (0, postInitState)) ∧
      ((0 : ℚ) ≤ 0 ∧ (0 : ℚ) < 1) :=
  ⟨postInit_query_eval,
    returned_hue_in_unit_interval CaptureOutcome.failed postInitState 0 postInitState
      postInit_query_eval⟩

/-! ## Lifecycle claims -/

/-- Counterexample to C3's "reports a state error and never crashes": calling
`getAmbientScreenHue` at process start (before any `initialize`) reaches
`rSum /= pixelCount` with `pixelCount = 0 * 0 = 0` — integer division by
zero, undefined behaviour (`none`), not a reported error. -/
theorem query_before_init_is_undefined :
    getAmbientScreenHue CaptureOutcome.failed initialState = none := rfl

/-- The state after `uninitialize()` on `postInitState`: both heap buffers
and both DCs freed, the bitmap handle still held. -/
def postUninitState : LibState :=
  ⟨1, 1, 1, 1, Alloc.freed, List.replicate 360 0, Alloc.freed, [0],
    Alloc.freed, Alloc.freed, Alloc.valid⟩

/-- C3 amended: the library performs no state checking and has no error
channel (`initialize`/`uninitialize` return `void`, `getAmbientScreenHue`
returns a bare `HUE`). A query before `initialize` divides by zero; a query
after `uninitialize` reads freed memory; a second `uninitialize`
double-frees. Each is undefined behaviour (`none`), and no state error is
ever reported. -/
theorem lifecycle_has_no_state_checks :
    (∀ cap, getAmbientScreenHue cap initialState = none) ∧
      ambientInit 1 1 1 1 initialState = some postInitState ∧
      ambientUninit postInitState = some postUninitState ∧
      (∀ cap, getAmbientScreenHue cap postUninitState = none) ∧
      ambientUninit postUninitState = none := by
  refine ⟨?_, rfl, rfl, ?_, rfl⟩
  · intro cap; cases cap <;> rfl
  · intro cap; cases cap <;> rfl

/-- The post-initialize state whose pixel buffer holds one captured green
pixel (DIB packing `0x00FF00`). -/
def postCaptureState : LibState :=
  ⟨1, 1, 1, 1, Alloc.valid, List.replicate 360 0, Alloc.valid, [65280],
    Alloc.valid, Alloc.valid, Alloc.valid⟩

lemma postCapture_compute :
    computeDominantHue postCaptureState.pixelData postCaptureState.bitmapWidth
      postCaptureState.bitmapHeight = some (1/3) := by
  unfold postCaptureState computeDominantHue channelSums samplePixel
  norm_num [List.range_succ, RGBtoHSB, GetRValue, GetGValue, GetBValue]

/-- Counterexample to C4: a query whose platform capture fails still returns
an ordinary hue — the hue of the buffer's previous (stale) contents — instead
of surfacing any capture error. Concretely: after a successful capture of one
green pixel, a failed capture returns the very same `some` result (hue 1/3),
indistinguishable from a fresh valid measurement. -/
theorem capture_failure_returns_stale_hue :
    getAmbientScreenHue (CaptureOutcome.ok [65280]) postInitState
        = some (1/3, postCaptureState) ∧
      getAmbientScreenHue CaptureOutcome.failed postCaptureState
        = some (1/3, postCaptureState) := by
  refine ⟨?_, ?_⟩
  · unfold getAmbientScreenHue postInitState postCaptureState computeDominantHue
      channelSums samplePixel clear_buffers
    norm_num [List.range_succ, RGBtoHSB, GetRValue, GetGValue, GetBValue]
  · unfold getAmbientScreenHue postCaptureState computeDominantHue
      channelSums samplePixel clear_buffers
    norm_num [List.range_succ, RGBtoHSB, GetRValue, GetGValue, GetBValue]

/-- C4 amended: `getAmbientScreenHue` ignores the return values of the
capture calls; when the capture fails it computes and returns the hue of
whatever the pixel buffer already holds, surfacing no error to the caller. -/
theorem capture_failure_uses_existing_buffer (s : LibState) (hue : ℚ)
    (hpb : s.pixelBuffer = Alloc.valid) (hh : s.hues = Alloc.valid)
    (hq : computeDominantHue s.pixelData s.bitmapWidth s.bitmapHeight = some hue) :
    getAmbientScreenHue CaptureOutcome.failed s
      = some (hue, { s with huesData := List.replicate 360 0 }) := by
  unfold getAmbientScreenHue clear_buffers
  simp only [Option.bind_eq_bind, Option.some_bind]
  rw [hpb, hh]
  simp only [hq, Option.bind_eq_bind, Option.some_bind]

theorem capture_failure_uses_existing_buffer_witness :
    (postCaptureState.pixelBuffer = Alloc.valid ∧ postCaptureState.hues = Alloc.valid ∧
        computeDominantHue postCaptureState.pixelData postCaptureState.bitmapWidth
          postCaptureState.bitmapHeight = some (1/3)) ∧
      getAmbientScreenHue CaptureOutcome.failed postCaptureState
        = some (1/3, { postCaptureState with huesData := List.replicate 360 0 }) :=
  ⟨⟨rfl, rfl, postCapture_compute⟩,
    capture_failure_uses_existing_buffer postCaptureState (1/3) rfl rfl postCapture_compute⟩

/-- C6 is a code bug: `uninitialize` frees both heap buffers and deletes
both device contexts, but never calls `DeleteObject(g_hBitmap)`. The screen
bitmap created by `initialize` is therefore still held after `uninitialize`,
although the function's own documentation says it "frees all previously
allocated resources". -/
theorem uninit_leaks_bitmap_handle :
    ambientInit 1 1 1 1 initialState = some postInitState ∧
      ambientUninit postInitState = some postUninitState ∧
      postUninitState.hues = Alloc.freed ∧
      postUninitState.pixelBuffer = Alloc.freed ∧
      postUninitState.hMemoryDC = Alloc.freed ∧
      postUninitState.hScreenDC = Alloc.freed ∧
      postUninitState.hBitmap = Alloc.valid :=
  ⟨rfl, rfl, rfl, rfl, rfl, rfl, rfl⟩

/-- The session left behind by `initialize(0, 0, 0, 0)`. -/
def zeroDimState : LibState :=
  ⟨0, 0, 0, 0, Alloc.valid, List.replicate 360 0, Alloc.valid, [],
    Alloc.valid, Alloc.valid, Alloc.valid⟩

/-- Counterexample to C7: `initialize(0, 0, 0, 0)` — every dimension
invalid — does not fail and establishes a session; no initialization error
exists in the interface (the function returns `void`). -/
theorem init_accepts_nonpositive_dimensions :
    ambientInit 0 0 0 0 initialState = some zeroDimState := rfl

/-- C7 amended: `initialize` validates nothing and always succeeds, for any
dimensions whatsoever; positive dimensions are only an unchecked
precondition, and with the zero dimensions accepted above the first query
divides by zero (undefined behaviour). -/
theorem init_never_reports_error :
    (∀ sw sh bw bh : ℤ, ∀ s : LibState, (ambientInit sw sh bw bh s).isSome) ∧
      (∀ cap, getAmbientScreenHue cap zeroDimState = none) := by
  constructor
  · intro sw sh bw bh s
    rfl
  · intro cap; cases cap <;> rfl

/-! ## Reachable query boundaries and the histogram invariant -/

/-- The query boundaries of an initialized session: the state right after
some `initialize`, and the state after each further successful query. -/
inductive Reaches : LibState → Prop where
  | init : ∀ sw sh bw bh s s', ambientInit sw sh bw bh s = some s' → Reaches s'
  | query : ∀ cap s hue s', Reaches s →
      getAmbientScreenHue cap s = some (hue, s') → Reaches s'

lemma clear_buffers_out (s s2 : LibState) (h : clear_buffers s = some s2) :
    s2.hues = s.hues ∧ s2.huesData = List.replicate 360 0 ∧ s.hues = Alloc.valid := by
  unfold clear_buffers at h
  cases hh : s.hues with
  | valid =>
    rw [hh] at h
    simp only [Option.some.injEq] at h
    rw [← h]
    exact ⟨rfl, rfl, rfl⟩
  | null => rw [hh] at h; simp at h
  | freed => rw [hh] at h; simp at h

lemma ambientInit_out (sw sh bw bh : ℤ) (s s' : LibState)
    (h : ambientInit sw sh bw bh s = some s') :
    s'.hues = Alloc.valid ∧ s'.huesData = List.replicate 360 0 := by
  unfold ambientInit at h
  simp only [Option.bind_eq_bind, Option.bind_eq_some] at h
  obtain ⟨s2, hc, h2⟩ := h
  have hout := clear_buffers_out _ _ hc
  simp only [Option.some.injEq] at h2
  rw [← h2]
  exact ⟨hout.1, hout.2.1⟩

lemma query_out (cap : CaptureOutcome) (s : LibState) (hue : ℚ) (s' : LibState)
    (h : getAmbientScreenHue cap s = some (hue, s')) :
    s'.hues = Alloc.valid ∧ s'.huesData = List.replicate 360 0 := by
  unfold getAmbientScreenHue at h
  have tail : ∀ (s1 : LibState) (buf : List ℕ),
      (computeDominantHue buf s1.bitmapWidth s1.bitmapHeight).bind
          (fun q => (clear_buffers s1).bind fun s2 => some (q, s2)) = some (hue, s') →
      s'.hues = Alloc.valid ∧ s'.huesData = List.replicate 360 0 := by
    intro s1 buf hh
    rw [Option.bind_eq_some] at hh
    obtain ⟨q, _, h2⟩ := hh
    rw [Option.bind_eq_some] at h2
    obtain ⟨s2, hc, h3⟩ := h2
    simp only [Option.some.injEq, Prod.mk.injEq] at h3
    have hout := clear_buffers_out _ _ hc
    rw [← h3.2]
    exact ⟨hout.1.trans hout.2.2, hout.2.1⟩
  cases cap with
  | ok grid =>
    cases hpb : s.pixelBuffer with
    | null => rw [hpb] at h; simp only [Option.some_bind] at h; exact tail _ _ h
    | valid => rw [hpb] at h; simp only [Option.some_bind] at h; exact tail _ _ h
    | freed => rw [hpb] at h; simp at h
  | failed =>
    simp only [Option.some_bind] at h
    exact tail _ _ h

/-- C9: the hue histogram is all-zero (360 zeroed counters) at every query
boundary of an initialized session: it is zero when any query starts, and
the query's closing `clear_buffers()` leaves it zero again on return, so no
stale histogram state is ever visible to the next call. -/
theorem histogram_zero_at_query_boundaries (s : LibState) (hs : Reaches s) :
    (s.hues = Alloc.valid ∧ s.huesData = List.replicate 360 0) ∧
      ∀ cap hue s', getAmbientScreenHue cap s = some (hue, s') →
        s'.hues = Alloc.valid ∧ s'.huesData = List.replicate 360 0 := by
  refine ⟨?_, fun cap hue s' h => query_out cap s hue s' h⟩
  induction hs with
  | init sw sh bw bh s0 s' h => exact ambientInit_out sw sh bw bh s0 s' h
  | query cap s0 hue s' _ h _ => exact query_out cap s0 hue s' h

theorem histogram_zero_at_query_boundaries_witness :
    Reaches postInitState ∧
      (postInitState.hues = Alloc.valid ∧
        postInitState.huesData = List.replicate 360 0) :=
  ⟨Reaches.init 1 1 1 1 initialState postInitState rfl,
    (histogram_zero_at_query_boundaries postInitState
      (Reaches.init 1 1 1 1 initialState postInitState rfl)).1⟩

end LibAmbient
